/-
Verification of the overstory agent-orchestration kernel against its
specification.  The definitions below are a shallow embedding of the
TypeScript sources: src/commands/coordinator.ts (session registry and
coordinator lifecycle), src/commands/status.ts (liveness reconciliation),
src/mulch/client.ts (mulch subprocess wrapper), and, where the
implementation file is absent from the snapshot, models written from the
specification text (guard synthesizer, hook deployer, merge engine).
External effects (file system, tmux, subprocesses) are made explicit as
parameters or returned operation traces.
-/
import Mathlib

namespace Overstory

/-- Error type of the kernel for operational failures.  Modelled from the
spec section 7 and the constructor usage in the sources: the constructor
takes a message and an optional context object carrying the agent name
(`new AgentError(msg, { agentName })`); when the context is omitted the
error carries no agent name. -/
structure AgentError where
  message : String
  agentName : Option String
deriving Repr, DecidableEq

/-- One session record per spawned agent, mirroring the `AgentSession`
object literal built in coordinator.ts and the fields read by status.ts. -/
structure AgentSession where
  id : String
  agentName : String
  capability : String
  worktreePath : String
  branchName : String
  beadId : String
  tmuxSession : String
  state : String
  pid : Nat
  parentAgent : Option String
  depth : Nat
  startedAt : String
  lastActivity : String
deriving Repr, DecidableEq

/-- Embedding of `loadSessions` from coordinator.ts: a missing file yields
the empty collection; a file whose text fails to parse is caught and also
yields the empty collection.  The platform JSON parser is passed in as a
black-box function; the return type `List AgentSession` (rather than an
exception monad) reflects that the TypeScript function never throws. -/
def loadSessions (parse : String → Except String (List AgentSession))
    (file : Option String) : List AgentSession :=
  match file with
  | none => []
  | some text =>
    match parse text with
    | .error _ => []
    | .ok sessions => sessions

/-- File-system operations performed by registry writers.  The content of a
write is kept as the structured session list (serialization preserved). -/
inductive RegistryOp where
  | write (path : String) (content : List AgentSession)
  | rename (src : String) (dst : String)
deriving Repr, DecidableEq

/-- Embedding of `saveSessions` from coordinator.ts: a single direct write
of the serialized collection to the registry path (`Bun.write(sessionsPath,
JSON.stringify(sessions, null, tab) + newline)`). -/
def saveSessionsOps (sessionsPath : String) (sessions : List AgentSession) :
    List RegistryOp :=
  [RegistryOp.write sessionsPath sessions]

/-- Embedding of the reconciliation persistence in status.ts gatherStatus:
the collection is written to `<path>.tmp` and the temporary file is then
renamed over the registry path. -/
def gatherStatusPersistOps (sessionsPath : String)
    (sessions : List AgentSession) : List RegistryOp :=
  [RegistryOp.write (sessionsPath ++ ".tmp") sessions,
   RegistryOp.rename (sessionsPath ++ ".tmp") sessionsPath]

/-- A trace of registry operations is an atomic replace of `target` when it
consists of a write to a temporary path distinct from the target followed by
a rename of that temporary path onto the target, so the target file only
ever holds a complete old or complete new collection. -/
def IsAtomicReplace (ops : List RegistryOp) (target : String) : Prop :=
  ∃ tmp content, ops = [RegistryOp.write tmp content,
    RegistryOp.rename tmp target] ∧ tmp ≠ target

/-- Predicate of `findCoordinatorSession` in coordinator.ts: the coordinator
record whose state is neither completed nor zombie. -/
def isActiveCoordinator (s : AgentSession) : Bool :=
  s.agentName == "coordinator" && s.capability == "coordinator" &&
    !(s.state == "completed") && !(s.state == "zombie")

/-- Embedding of `findCoordinatorSession`: first matching record, if any. -/
def findCoordinatorSession (sessions : List AgentSession) :
    Option AgentSession :=
  sessions.find? isActiveCoordinator

/-- Mutation of the record found by `findCoordinatorSession` inside the
collection: the TypeScript code mutates the found object in place and the
array then contains the mutated record at its original position. -/
def updateFirstCoordinator (f : AgentSession → AgentSession) :
    List AgentSession → List AgentSession
  | [] => []
  | s :: rest =>
    if isActiveCoordinator s then f s :: rest
    else s :: updateFirstCoordinator f rest

/-- Session record built by `startCoordinator` in coordinator.ts for the
freshly spawned coordinator: state booting, depth 0, no parent, empty bead,
project root as worktree. -/
def mkCoordinatorSession (idSuffix : String) (pid : Nat) (root : String)
    (branch : String) (nowIso : String) : AgentSession :=
  { id := "session-" ++ idSuffix ++ "-coordinator"
    agentName := "coordinator"
    capability := "coordinator"
    worktreePath := root
    branchName := branch
    beadId := ""
    tmuxSession := "overstory-coordinator"
    state := "booting"
    pid := pid
    parentAgent := none
    depth := 0
    startedAt := nowIso
    lastActivity := nowIso }

/-- Embedding of `startCoordinator` from coordinator.ts, restricted to its
registry effect.  The result is the ordered list of registry file contents
written (each write is a full `saveSessions` of the collection) together
with the thrown error, if any.  When an active record exists and its tmux
session is alive the function throws before any write; when it exists but
is dead the stale record is first marked completed and saved, and after the
external spawn steps the new booting record is appended and saved. -/
def startCoordinator (sessions : List AgentSession) (alive : String → Bool)
    (idSuffix : String) (pid : Nat) (root : String) (branch : String)
    (nowIso : String) : List (List AgentSession) × Option AgentError :=
  match findCoordinatorSession sessions with
  | some existing =>
    if alive existing.tmuxSession then
      let msg := "Coordinator is already running (tmux: " ++
        existing.tmuxSession ++ ", since: " ++ existing.startedAt ++ ")"
      ([], some { message := msg, agentName := some "coordinator" })
    else
      let marked := updateFirstCoordinator
        (fun s => { s with state := "completed" }) sessions
      ([marked, marked ++ [mkCoordinatorSession idSuffix pid root branch nowIso]],
        none)
  | none =>
    ([sessions ++ [mkCoordinatorSession idSuffix pid root branch nowIso]], none)

/-- Embedding of `resolveAttach` from coordinator.ts: an explicit
`--attach` flag wins, then an explicit `--no-attach`, else the TTY flag. -/
def resolveAttach (args : List String) (isTTY : Bool) : Bool :=
  if args.contains "--attach" then true
  else if args.contains "--no-attach" then false
  else isTTY

/-- States that count as live in the reconciliation loop of status.ts. -/
def isActiveState (state : String) : Bool :=
  state == "booting" || state == "working" || state == "stalled"

/-- Reconciliation of one session record in gatherStatus (status.ts): a
session in an active state whose tmux session is not among the live tmux
session names is demoted to zombie; only the state field is touched. -/
def reconcileOne (tmuxNames : List String) (s : AgentSession) : AgentSession :=
  if isActiveState s.state && !(tmuxNames.contains s.tmuxSession) then
    { s with state := "zombie" }
  else s

/-- Reconciliation loop of gatherStatus over the whole collection, together
with the sessionsUpdated flag that decides whether a persistence write is
attempted. -/
def reconcileSessions (sessions : List AgentSession)
    (tmuxNames : List String) : List AgentSession × Bool :=
  (sessions.map (reconcileOne tmuxNames),
    sessions.any (fun s =>
      isActiveState s.state && !(tmuxNames.contains s.tmuxSession)))

/-- Registry-relevant behaviour of `gatherStatus` in status.ts.  Inputs are
the registry contents, the live tmux session names, and whether the
best-effort persistence write succeeds; the first component is the agents
list returned to the caller (the reconciled collection, returned regardless
of write success because the write is wrapped in a swallowing catch), the
second the registry file contents afterwards. -/
def gatherStatusAgents (sessions : List AgentSession)
    (tmuxNames : List String) (writeOk : Bool) :
    List AgentSession × List AgentSession :=
  let r := reconcileSessions sessions tmuxNames
  (r.1, if r.2 && writeOk then r.1 else sessions)

/-- Status object printed by `statusCoordinator` in coordinator.ts. -/
structure CoordStatus where
  running : Bool
  sessionId : String
  state : String
  tmuxSession : String
  pid : Nat
  startedAt : String
  lastActivity : String
deriving Repr, DecidableEq

/-- Projection of a session record to the printed status object. -/
def mkCoordStatus (alive : Bool) (s : AgentSession) : CoordStatus :=
  { running := alive, sessionId := s.id, state := s.state,
    tmuxSession := s.tmuxSession, pid := s.pid, startedAt := s.startedAt,
    lastActivity := s.lastActivity }

/-- Embedding of `statusCoordinator` from coordinator.ts.  When the found
record claims activity but tmux is dead, the record is set to zombie, its
lastActivity is refreshed to the current time and the collection is saved
with a plain (unguarded) `saveSessions`; a failing save therefore
propagates as an exception, modelled as `Except.error ()`.  On success the
result is the printed status (none when no record was found) and the final
registry contents. -/
def statusCoordinator (sessions : List AgentSession) (alive : String → Bool)
    (nowIso : String) (writeOk : Bool) :
    Except Unit (Option CoordStatus × List AgentSession) :=
  match findCoordinatorSession sessions with
  | none => .ok (none, sessions)
  | some s =>
    let a := alive s.tmuxSession
    if !a && !(s.state == "completed") && !(s.state == "zombie") then
      let s2 := { s with state := "zombie", lastActivity := nowIso }
      let sessions2 := updateFirstCoordinator
        (fun r => { r with state := "zombie", lastActivity := nowIso }) sessions
      if writeOk then .ok (some (mkCoordStatus a s2), sessions2)
      else .error ()
    else .ok (some (mkCoordStatus a s), sessions)

/-- Captured output of one subprocess invocation (client.ts runCommand). -/
structure ProcResult where
  stdout : String
  stderr : String
  exitCode : Nat
deriving Repr, DecidableEq

/-- Embedding of the `runMulch` helper inside createMulchClient
(client.ts): a non-zero exit code raises an AgentError whose message names
the mulch subcommand context and the exit code and carries the trimmed
stderr; the constructor is called without a context object. -/
def runMulch (context : String) (res : ProcResult) :
    Except AgentError (String × String) :=
  if res.exitCode != 0 then
    let msg := "mulch " ++ context ++ " failed (exit " ++
      toString res.exitCode ++ "): " ++ res.stderr.trim
    .error { message := msg, agentName := none }
  else
    .ok (res.stdout, res.stderr)

/-- Command text of a deployed hook, split into literal segments and
occurrences of the agent-name placeholder written in the template file as
the token \x7b\x7bAGENT_NAME\x7d\x7d.  The token representation lets
substitution and the count of remaining placeholders be stated exactly. -/
inductive CmdPart where
  | lit (s : String)
  | agentNameTag
deriving Repr, DecidableEq

/-- One entry of a hook rule: `\x7btype: "command", command\x7d`. -/
structure HookEntry where
  type : String
  command : List CmdPart
deriving Repr, DecidableEq

/-- One element of a hook category list: `\x7bmatcher, hooks\x7d`; the
empty matcher denotes the unconditional base rule. -/
structure HookRule where
  matcher : String
  hooks : List HookEntry
deriving Repr, DecidableEq

/-- Command consisting of a single literal segment. -/
def litCmd (s : String) : List CmdPart :=
  [CmdPart.lit s]

/-- Hook rule with one command entry, the shape of every rule in the
template and in the synthesized guards. -/
def cmdRule (matcherName : String) (c : List CmdPart) : HookRule :=
  { matcher := matcherName
    hooks := [{ type := "command", command := c }] }

/-- Modelled from the spec: the structured block decision emitted by a
file-mutation-tool guard, naming the capability and its inability to modify
files (hooks-deployer.ts is absent from the snapshot; shape attested by
hooks-deployer.test.ts). -/
def blockDecision (capability : String) : String :=
  "echo \x7b\"decision\":\"block\",\"reason\":\"" ++ capability ++
    " agents cannot modify files\"\x7d"

/-- Modelled from the spec: a guard rule that unconditionally blocks one
file-mutation tool category for the given capability. -/
def toolBlockGuard (capability : String) (tool : String) : HookRule :=
  cmdRule tool (litCmd (blockDecision capability))

/-- Modelled from the spec: the generic-channel file-guard script of the
guard synthesizer — allow on a fixed safe-prefix list plus capability
extras, deny on a fixed mutation-pattern list, else fall through to allow
(buildBashFileGuardScript in hooks-deployer.ts, absent from the snapshot;
attested substrings from hooks-deployer.test.ts). -/
def buildBashFileGuardScript (capability : String)
    (extraSafePrefixes : List String) : String :=
  "read -r INPUT; CMD=$(printf %s \"$INPUT\"); " ++
    String.intercalate "" ((["overstory ", "bd ", "git status", "git log",
        "git diff", "mulch ", "bun test", "bun run lint"] ++
        extraSafePrefixes).map
      (fun p => "if match \"" ++ p ++ "\"; then exit 0; fi; ")) ++
    "if grep -qE \"sed\\s+-i|tee|vim|nano|mv|cp|rm|mkdir|touch|chmod|chown" ++
    "|>>|bun\\s+install|bun\\s+add|npm\\s+install|git\\s+add|git\\s+commit" ++
    "|git\\s+push\"; then " ++ blockDecision capability ++ "; fi"

/-- Modelled from the spec: the Bash file guard rule wrapping the script. -/
def bashFileGuard (capability : String) (extraSafePrefixes : List String) :
    HookRule :=
  cmdRule "Bash" (litCmd (buildBashFileGuardScript capability extraSafePrefixes))

/-- Modelled from the spec: the ten universal blocks of native
team-coordination primitives applied to every capability, redirecting the
sub-agent-spawn primitive to overstory sling and the team-creation and
messaging primitives to the overstory mail and spawn commands.  Only the
Task, TeamCreate and SendMessage matcher names are attested by the tests;
the remaining seven names are representative stand-ins, one rule each. -/
def nativeTeamToolBlocks : List HookRule :=
  [cmdRule "Task" (litCmd "echo blocked: use overstory sling to spawn agents"),
   cmdRule "TeamCreate" (litCmd "echo blocked: use overstory sling and overstory mail"),
   cmdRule "SendMessage" (litCmd "echo blocked: use overstory mail send"),
   cmdRule "TeamDelete" (litCmd "echo blocked: use overstory mail"),
   cmdRule "TeamList" (litCmd "echo blocked: use overstory mail"),
   cmdRule "TeamGet" (litCmd "echo blocked: use overstory mail"),
   cmdRule "ReadMessage" (litCmd "echo blocked: use overstory mail check"),
   cmdRule "ListMessages" (litCmd "echo blocked: use overstory mail list"),
   cmdRule "BroadcastMessage" (litCmd "echo blocked: use overstory mail send"),
   cmdRule "WaitForMessage" (litCmd "echo blocked: use overstory mail check")]

/-- Modelled from the spec: the singular danger-guard script on the generic
execution channel — deny push to a canonical default branch, hard history
reset, and branch creation outside the reserved namespace of this agent. -/
def dangerGuardScript (agentName : String) : String :=
  "deny if: git push origin main; git push origin master; " ++
    "git reset --hard; git checkout -b outside overstory/" ++ agentName ++ "/"

/-- Modelled from the spec: `getDangerGuards` — exactly one Bash rule per
agent, identical in shape for every capability. -/
def getDangerGuards (agentName : String) : List HookRule :=
  [cmdRule "Bash" (litCmd (dangerGuardScript agentName))]

/-- Capabilities treated as non-implementation roles by the guard
synthesizer. -/
def nonImplementationCapabilities : List String :=
  ["scout", "reviewer", "lead", "coordinator", "supervisor"]

/-- Extra safe prefixes granted to a capability in its file guard: the
coordinator (and supervisor) additionally gets stage and commit. -/
def capabilityExtraSafePrefixes (capability : String) : List String :=
  if capability == "coordinator" || capability == "supervisor" then
    ["git add", "git commit"]
  else []

/-- Modelled from the spec: `getCapabilityGuards` — the ten universal
team-tool blocks for every capability, plus, for non-implementation roles
only, the three file-mutation-tool blocks and the Bash file guard
(counts and matcher sets attested by hooks-deployer.test.ts). -/
def getCapabilityGuards (capability : String) : List HookRule :=
  nativeTeamToolBlocks ++
    (if nonImplementationCapabilities.contains capability then
      [toolBlockGuard capability "Write",
       toolBlockGuard capability "Edit",
       toolBlockGuard capability "NotebookEdit",
       bashFileGuard capability (capabilityExtraSafePrefixes capability)]
    else [])

/-- Modelled from the spec: the fixed hooks template with six lifecycle
categories wired to the priming, mail-check and logging commands, each
mentioning the agent-name placeholder (exact commands for SessionStart,
UserPromptSubmit and PreCompact attested by hooks-deployer.test.ts; the
logging commands of the remaining categories are representative). -/
def hooksTemplate : List (String × List HookRule) :=
  [("SessionStart",
    [cmdRule "" [CmdPart.lit "overstory prime --agent ", CmdPart.agentNameTag]]),
   ("UserPromptSubmit",
    [cmdRule "" [CmdPart.lit "overstory mail check --inject --agent ",
      CmdPart.agentNameTag]]),
   ("PreToolUse",
    [cmdRule "" [CmdPart.lit "overstory log --hook pre-tool-use --agent ",
      CmdPart.agentNameTag]]),
   ("PostToolUse",
    [cmdRule "" [CmdPart.lit "overstory log --hook post-tool-use --agent ",
      CmdPart.agentNameTag]]),
   ("Stop",
    [cmdRule "" [CmdPart.lit "overstory log --hook stop --agent ",
      CmdPart.agentNameTag]]),
   ("PreCompact",
    [cmdRule "" [CmdPart.lit "overstory prime --agent ", CmdPart.agentNameTag,
      CmdPart.lit " --compact"]])]

/-- Substitution of the agent-name placeholder by the literal name inside
one command. -/
def substCmd (agentName : String) (c : List CmdPart) : List CmdPart :=
  c.map (fun p =>
    match p with
    | CmdPart.agentNameTag => CmdPart.lit agentName
    | CmdPart.lit s => CmdPart.lit s)

/-- Substitution lifted to one hook rule. -/
def substRule (agentName : String) (r : HookRule) : HookRule :=
  { r with hooks := r.hooks.map (fun h =>
      { h with command := substCmd agentName h.command }) }

/-- Modelled from the spec: `deployHooks` — substitute the agent name for
every placeholder occurrence in the template, then prepend the danger
guard and the guard set of the capability, in that order, to the
pre-tool-use list, before the unconditional base logging rule.  An omitted
capability behaves as an implementation role (empty label, not a
non-implementation capability).  The result is the structured content of
the written settings.local.json. -/
def deployHooks (agentName : String) (capability : Option String) :
    List (String × List HookRule) :=
  let capStr := capability.getD ""
  let guards := getDangerGuards agentName ++ getCapabilityGuards capStr
  (hooksTemplate.map (fun kv => (kv.1, kv.2.map (substRule agentName)))).map
    (fun kv => if kv.1 == "PreToolUse" then (kv.1, guards ++ kv.2) else kv)

/-- Test for a remaining placeholder occurrence in a command. -/
def hasAgentTag (c : List CmdPart) : Bool :=
  c.any (fun p =>
    match p with
    | CmdPart.agentNameTag => true
    | CmdPart.lit _ => false)

/-- Test that no command anywhere in a deployed config still mentions the
placeholder. -/
def configPlaceholderFree (cfg : List (String × List HookRule)) : Bool :=
  cfg.all (fun kv => kv.2.all (fun r =>
    r.hooks.all (fun h => !(hasAgentTag h.command))))

/-- The pre-tool-use rule list of a deployed config. -/
def preToolUseRules (cfg : List (String × List HookRule)) : List HookRule :=
  ((cfg.find? (fun kv => kv.1 == "PreToolUse")).map Prod.snd).getD []

/-- A file tree of a commit: association list from path to file content. -/
abbrev FileTree : Type := List (String × String)

/-- Content of a path in a tree, none when the path is absent. -/
def lookupFile (t : FileTree) (p : String) : Option String :=
  (t.find? (fun e => e.1 == p)).map Prod.snd

/-- Path keys of a tree. -/
def treePaths (t : FileTree) : List String :=
  t.map Prod.fst

/-- All paths mentioned by the merge base, the integration target or the
incoming branch, without duplicates. -/
def allPaths (base target incoming : FileTree) : List String :=
  (treePaths base ++ treePaths target ++ treePaths incoming).dedup

/-- A side modified a path when its content there differs from the base
(content change, addition or deletion). -/
def modifiedFrom (base side : FileTree) (p : String) : Bool :=
  !(lookupFile side p == lookupFile base p)

/-- Both sides modified the path and disagree on the result. -/
def conflictAt (base target incoming : FileTree) (p : String) : Bool :=
  modifiedFrom base target p && modifiedFrom base incoming p &&
    !(lookupFile target p == lookupFile incoming p)

/-- A structural conflict: the sides disagree and one of them deleted the
path while the other kept it (the modelled analogue of the delete-modify
and other non-content conflicts that tier 2 must not resolve). -/
def structuralConflictAt (base target incoming : FileTree) (p : String) :
    Bool :=
  conflictAt base target incoming p &&
    ((lookupFile target p).isNone || (lookupFile incoming p).isNone)

/-- Paths on which the two sides conflict. -/
def conflictPaths (base target incoming : FileTree) : List String :=
  (allPaths base target incoming).filter (conflictAt base target incoming)

/-- Content of a path after the merge: the incoming version wherever the
incoming branch modified the path (so on every conflicting path the
incoming version wins in full), the target version elsewhere. -/
def mergedContent (base target incoming : FileTree) (p : String) :
    Option String :=
  if modifiedFrom base incoming p then lookupFile incoming p
  else lookupFile target p

/-- Result of a single-branch integration. -/
structure IntegrateResult where
  success : Bool
  tier : Option String
  unresolvedPaths : List String
deriving Repr, DecidableEq

/-- Modelled from the spec: the tiered single-branch `integrate` contract
of the merge integration engine (merge.ts is absent from the snapshot;
behaviour attested by merge.test.ts).  Tier 1 reports clean-merge when no
path conflicts; tier 2 reports content-merge when every conflict is
content-only, taking the incoming version in full on each conflicting
path; otherwise the attempt is aborted and the failure reported with the
structural paths left unresolved. -/
def integrate (base target incoming : FileTree) : IntegrateResult :=
  let cps := conflictPaths base target incoming
  if cps.isEmpty then
    { success := true, tier := some "clean-merge", unresolvedPaths := [] }
  else if cps.all (fun p => !(structuralConflictAt base target incoming p)) then
    { success := true, tier := some "content-merge", unresolvedPaths := [] }
  else
    { success := false, tier := none,
      unresolvedPaths := cps.filter (structuralConflictAt base target incoming) }

/-- Content of a path on the target branch after the integration attempt:
the merged content on success, the restored pre-attempt target content on
abort. -/
def integrateContent (base target incoming : FileTree) (p : String) :
    Option String :=
  if (integrate base target incoming).success then
    mergedContent base target incoming p
  else lookupFile target p

/-- Concrete coordinator session record in state working, as written by the
test helper makeCoordinatorSession in coordinator.test.ts. -/
def sampleCoordinatorSession : AgentSession :=
  { id := "session-dead-coordinator"
    agentName := "coordinator"
    capability := "coordinator"
    worktreePath := "/repo"
    branchName := "main"
    beadId := ""
    tmuxSession := "overstory-coordinator"
    state := "working"
    pid := 99999
    parentAgent := none
    depth := 0
    startedAt := "2024-01-01T00:00:00Z"
    lastActivity := "2024-01-01T00:00:00Z" }

/-- Merge base of the content-conflict scenario of merge.test.ts. -/
def mergeBaseSample : FileTree :=
  [("src/shared.ts", "base content")]

/-- Integration target of the content-conflict scenario: the same file
modified on the default branch. -/
def mergeTargetSample : FileTree :=
  [("src/shared.ts", "default branch content")]

/-- Incoming branch of the content-conflict scenario: the same file
modified differently on the feature branch. -/
def mergeIncomingSample : FileTree :=
  [("src/shared.ts", "feature branch content")]

/-- Splitting lemma for the in-place mutation of the record located by
findCoordinatorSession: the collection decomposes around the found record
and updateFirstCoordinator rewrites exactly that record. -/
theorem updateFirstCoordinator_split (f : AgentSession → AgentSession)
    (l : List AgentSession) :
    ∀ ex, findCoordinatorSession l = some ex →
      ∃ pre post, l = pre ++ ex :: post ∧
        updateFirstCoordinator f l = pre ++ f ex :: post := by
  induction l with
  | nil =>
    intro ex h
    simp [findCoordinatorSession] at h
  | cons a rest ih =>
    intro ex h
    by_cases ha : isActiveCoordinator a = true
    · have hea : ex = a := by
        simp [findCoordinatorSession, List.find?_cons_of_pos _ ha] at h
        exact h.symm
      subst hea
      exact ⟨[], rest, rfl, by simp [updateFirstCoordinator, ha]⟩
    · have hfr : findCoordinatorSession rest = some ex := by
        simpa [findCoordinatorSession, List.find?_cons_of_neg _ ha] using h
      obtain ⟨pre, post, hl, hu⟩ := ih ex hfr
      refine ⟨a :: pre, post, by simp [hl], ?_⟩
      have hna : isActiveCoordinator a = false := by simpa using ha
      simp [updateFirstCoordinator, hna, hu]

/-- Membership lemma: a path with a present content in a tree is among the
path keys of that tree. -/
theorem mem_treePaths_of_lookupFile_isSome (t : FileTree) (p : String)
    (h : (lookupFile t p).isSome = true) : p ∈ treePaths t := by
  unfold lookupFile at h
  cases hf : t.find? (fun e => e.1 == p) with
  | none => rw [hf] at h; simp at h
  | some e =>
    have hmem := List.mem_of_find?_eq_some hf
    have hp : e.1 = p := by
      have := List.find?_some hf
      simpa using this
    exact hp ▸ List.mem_map_of_mem Prod.fst hmem

/-- C10: resolveAttach returns true whenever the argument list contains
the literal flag for attaching, regardless of the TTY flag and even when
the flag for not attaching is also present; it returns false when the list
contains the flag for not attaching without the attach flag; otherwise it
returns the TTY flag unchanged. -/
theorem resolveAttach_spec (args : List String) (tty : Bool) :
    (args.contains "--attach" = true → resolveAttach args tty = true) ∧
    (args.contains "--attach" = false → args.contains "--no-attach" = true →
      resolveAttach args tty = false) ∧
    (args.contains "--attach" = false → args.contains "--no-attach" = false →
      resolveAttach args tty = tty) := by
  refine ⟨fun h1 => ?_, fun h1 h2 => ?_, fun h1 h2 => ?_⟩ <;>
    simp_all [resolveAttach]

/-- Witness for C10 at the three concrete argument lists exercised by
coordinator.test.ts. -/
theorem resolveAttach_spec_witness :
    resolveAttach ["--attach", "--no-attach"] false = true ∧
    resolveAttach ["--no-attach"] true = false ∧
    resolveAttach ["--json"] true = true :=
  ⟨(resolveAttach_spec ["--attach", "--no-attach"] false).1 (by decide),
   (resolveAttach_spec ["--no-attach"] true).2.1 (by decide) (by decide),
   (resolveAttach_spec ["--json"] true).2.2 (by decide) (by decide)⟩

/-- C8: loadSessions on a missing registry file, and on registry content
rejected by the JSON parser, returns the empty collection; its total
return type (a plain list, no exception monad) captures that it never
raises. -/
theorem loadSessions_degrades
    (parse : String → Except String (List AgentSession))
    (text e : String) (h : parse text = .error e) :
    loadSessions parse none = [] ∧ loadSessions parse (some text) = [] := by
  exact ⟨rfl, by simp [loadSessions, h]⟩

/-- Witness for C8 with a concrete rejecting parser and the malformed
content used by coordinator.test.ts. -/
theorem loadSessions_degrades_witness :
    loadSessions (fun _ => .error "SyntaxError") none = [] ∧
    loadSessions (fun _ => .error "SyntaxError") (some "not valid json") = [] :=
  loadSessions_degrades (fun _ => .error "SyntaxError") "not valid json"
    "SyntaxError" rfl

/-- C1: the guard set of a capability has exactly 14 rules for the
non-implementation capabilities scout, reviewer, lead, coordinator and
supervisor (ten universal blocks, three tool blocks, one file guard), and
exactly 10 rules for implementation or unrecognized capabilities. -/
theorem getCapabilityGuards_count (capability : String) :
    (getCapabilityGuards capability).length =
      if nonImplementationCapabilities.contains capability then 14 else 10 := by
  unfold getCapabilityGuards
  cases h : nonImplementationCapabilities.contains capability <;>
    simp [h, nativeTeamToolBlocks]

/-- C6: for every agent name, the deployed config substitutes the name for
every occurrence of the agent-name placeholder — no placeholder remains in
any command — and holds exactly the six hook categories; the file content
is the serialization of this structured object, hence valid JSON. -/
theorem deployHooks_placeholder_free (agentName : String)
    (capability : Option String) :
    (deployHooks agentName capability).map Prod.fst =
      ["SessionStart", "UserPromptSubmit", "PreToolUse", "PostToolUse",
        "Stop", "PreCompact"] ∧
    configPlaceholderFree (deployHooks agentName capability) = true := by
  have h0 : "" ∉ nonImplementationCapabilities := by decide
  cases capability with
  | none =>
    constructor <;>
      simp [deployHooks, hooksTemplate, substRule, substCmd, cmdRule, litCmd,
        configPlaceholderFree, hasAgentTag, getCapabilityGuards,
        getDangerGuards, nativeTeamToolBlocks, toolBlockGuard, bashFileGuard,
        h0]
  | some c =>
    by_cases h : c ∈ nonImplementationCapabilities <;>
      constructor <;>
        simp [deployHooks, hooksTemplate, substRule, substCmd, cmdRule, litCmd,
          configPlaceholderFree, hasAgentTag, getCapabilityGuards,
          getDangerGuards, nativeTeamToolBlocks, toolBlockGuard, bashFileGuard,
          h]

/-- C7: in the pre-tool-use list of every deployed config the rules split
into a prefix of non-empty matchers followed only by empty-matcher rules,
so every non-empty matcher precedes the first empty matcher; and the head
of the list is the Bash danger guard, which therefore precedes the
capability tool-block guards. -/
theorem deployHooks_guard_order (agentName : String)
    (capability : Option String) :
    (∃ k, ((preToolUseRules (deployHooks agentName capability)).take k).all
        (fun r => !(r.matcher == "")) = true ∧
      ((preToolUseRules (deployHooks agentName capability)).drop k).all
        (fun r => r.matcher == "") = true) ∧
    (preToolUseRules (deployHooks agentName capability)).head? =
      some (cmdRule "Bash" (litCmd (dangerGuardScript agentName))) := by
  have h0 : "" ∉ nonImplementationCapabilities := by decide
  cases capability with
  | none =>
    refine ⟨⟨11, ?_, ?_⟩, ?_⟩ <;>
      simp [preToolUseRules, deployHooks, hooksTemplate, substRule, substCmd,
        cmdRule, litCmd, getCapabilityGuards, getDangerGuards,
        nativeTeamToolBlocks, toolBlockGuard, bashFileGuard, h0]
  | some c =>
    by_cases h : c ∈ nonImplementationCapabilities
    · refine ⟨⟨15, ?_, ?_⟩, ?_⟩ <;>
        simp [preToolUseRules, deployHooks, hooksTemplate, substRule, substCmd,
          cmdRule, litCmd, getCapabilityGuards, getDangerGuards,
          nativeTeamToolBlocks, toolBlockGuard, bashFileGuard, h]
    · refine ⟨⟨11, ?_, ?_⟩, ?_⟩ <;>
        simp [preToolUseRules, deployHooks, hooksTemplate, substRule, substCmd,
          cmdRule, litCmd, getCapabilityGuards, getDangerGuards,
          nativeTeamToolBlocks, toolBlockGuard, bashFileGuard, h]

/-- C4 counterexample: at the concrete registry path and collection used
here, the write performed by saveSessions is a single direct write of the
registry file, not a temp-file-plus-rename atomic replace. -/
theorem saveSessions_not_atomic_counterexample :
    ¬ IsAtomicReplace (saveSessionsOps "sessions.json" []) "sessions.json" := by
  rintro ⟨tmp, content, h, hne⟩
  simp [saveSessionsOps] at h

/-- C4 amended: the status reconciliation write commits via an atomic
temp-file-plus-rename replace of the registry path, while saveSessions
(used by coordinator start and stop) writes the registry file directly in
one write call without a temporary file. -/
theorem registryWriteDisciplines (path : String)
    (sessions : List AgentSession) :
    IsAtomicReplace (gatherStatusPersistOps path sessions) path ∧
    saveSessionsOps path sessions = [RegistryOp.write path sessions] ∧
    ¬ IsAtomicReplace (saveSessionsOps path sessions) path := by
  refine ⟨⟨path ++ ".tmp", sessions, rfl, ?_⟩, rfl, ?_⟩
  · intro hcontra
    have hlen := congrArg String.length hcontra
    simp [String.length_append] at hlen
    exact (by decide : ¬ (String.length ".tmp" = 0)) hlen
  · rintro ⟨tmp, content, h, hne⟩
    simp [saveSessionsOps] at h

/-- C9 counterexample: the AgentError raised when a mulch subprocess exits
non-zero, here the status subcommand with exit code 1 and stderr boom,
carries no agent name. -/
theorem runMulch_error_counterexample :
    ∃ e, runMulch "status" { stdout := "", stderr := "boom", exitCode := 1 } =
      Except.error e ∧ e.agentName = none := by
  refine ⟨AgentError.mk ("mulch " ++ "status" ++ " failed (exit " ++
    toString (1 : Nat) ++ "): " ++ "boom".trim) none, ?_, rfl⟩
  simp [runMulch]

/-- C9 amended: the AgentError of a duplicate coordinator start carries
the agent name, while the AgentError thrown when a mulch subprocess
invocation exits non-zero names the mulch subcommand context and the exit
code in its message but carries no agent name. -/
theorem agentError_name_discipline (context : String) (res : ProcResult)
    (hexit : res.exitCode ≠ 0) (sessions : List AgentSession)
    (alive : String → Bool) (idSuffix : String) (pid : Nat)
    (root branch nowIso : String) (ex : AgentSession)
    (hfind : findCoordinatorSession sessions = some ex)
    (halive : alive ex.tmuxSession = true) :
    (∃ e, runMulch context res = Except.error e ∧ e.agentName = none ∧
      e.message = "mulch " ++ context ++ " failed (exit " ++
        toString res.exitCode ++ "): " ++ res.stderr.trim) ∧
    (∃ e, (startCoordinator sessions alive idSuffix pid root branch
        nowIso).2 = some e ∧ e.agentName = some "coordinator") := by
  constructor
  · refine ⟨AgentError.mk ("mulch " ++ context ++ " failed (exit " ++
      toString res.exitCode ++ "): " ++ res.stderr.trim) none, ?_, rfl, rfl⟩
    simp [runMulch, hexit]
  · refine ⟨AgentError.mk ("Coordinator is already running (tmux: " ++
      ex.tmuxSession ++ ", since: " ++ ex.startedAt ++ ")")
      (some "coordinator"), ?_, rfl⟩
    simp [startCoordinator, hfind, halive]

/-- Witness for C9 amended at the concrete mulch failure of
client.test.ts and the duplicate-start scenario of coordinator.test.ts. -/
theorem agentError_name_discipline_witness :
    (∃ e, runMulch "status" { stdout := "", stderr := "x", exitCode := 2 } =
      Except.error e ∧ e.agentName = none ∧
      e.message = "mulch " ++ "status" ++ " failed (exit " ++
        toString (2 : Nat) ++ "): " ++ "x".trim) ∧
    (∃ e, (startCoordinator [sampleCoordinatorSession] (fun _ => true) "1"
        99999 "/repo" "main" "2025-01-01T00:00:00Z").2 = some e ∧
      e.agentName = some "coordinator") :=
  agentError_name_discipline "status"
    { stdout := "", stderr := "x", exitCode := 2 } (by decide)
    [sampleCoordinatorSession] (fun _ => true) "1" 99999 "/repo" "main"
    "2025-01-01T00:00:00Z" sampleCoordinatorSession (by rfl) rfl

/-- C3: starting the coordinator while a non-terminal coordinator record
exists fails with the already-running AgentError and performs no registry
write when the recorded tmux session is alive; when that session is dead,
the stale record is first rewritten to completed and saved, and the new
booting record is then appended and saved. -/
theorem startCoordinator_spec (sessions : List AgentSession)
    (alive : String → Bool) (idSuffix : String) (pid : Nat)
    (root branch nowIso : String) (ex : AgentSession)
    (hfind : findCoordinatorSession sessions = some ex) :
    (alive ex.tmuxSession = true →
      (startCoordinator sessions alive idSuffix pid root branch nowIso).1 =
        [] ∧
      (startCoordinator sessions alive idSuffix pid root branch nowIso).2 =
        some (AgentError.mk ("Coordinator is already running (tmux: " ++
          ex.tmuxSession ++ ", since: " ++ ex.startedAt ++ ")")
          (some "coordinator"))) ∧
    (alive ex.tmuxSession = false →
      ∃ pre post, sessions = pre ++ ex :: post ∧
        (startCoordinator sessions alive idSuffix pid root branch nowIso).1 =
          [pre ++ { ex with state := "completed" } :: post,
            (pre ++ { ex with state := "completed" } :: post) ++
              [mkCoordinatorSession idSuffix pid root branch nowIso]] ∧
        (startCoordinator sessions alive idSuffix pid root branch nowIso).2 =
          none ∧
        (mkCoordinatorSession idSuffix pid root branch nowIso).state =
          "booting") := by
  constructor
  · intro halive
    constructor <;> simp [startCoordinator, hfind, halive]
  · intro hdead
    obtain ⟨pre, post, hl, hu⟩ := updateFirstCoordinator_split
      (fun s => { s with state := "completed" }) sessions ex hfind
    refine ⟨pre, post, hl, ?_, ?_, rfl⟩ <;>
      simp [startCoordinator, hfind, hdead, hu]

/-- Witness for C3 at the concrete scenarios of coordinator.test.ts: a
recorded working coordinator with a live tmux session rejects the start
with no write, and the same record with a dead tmux session leads to two
writes, the first marking the record completed. -/
theorem startCoordinator_spec_witness :
    ((startCoordinator [sampleCoordinatorSession] (fun _ => true) "1" 99999
      "/repo" "main" "2025-01-01T00:00:00Z").1 = [] ∧
    (startCoordinator [sampleCoordinatorSession] (fun _ => false) "1" 99999
      "/repo" "main" "2025-01-01T00:00:00Z").1 =
      [[{ sampleCoordinatorSession with state := "completed" }],
        [{ sampleCoordinatorSession with state := "completed" },
          mkCoordinatorSession "1" 99999 "/repo" "main"
            "2025-01-01T00:00:00Z"]]) := by
  constructor
  · exact ((startCoordinator_spec [sampleCoordinatorSession] (fun _ => true)
      "1" 99999 "/repo" "main" "2025-01-01T00:00:00Z"
      sampleCoordinatorSession rfl).1 rfl).1
  · obtain ⟨pre, post, hl, hwrites, hnone, hboot⟩ :=
      (startCoordinator_spec [sampleCoordinatorSession] (fun _ => false)
        "1" 99999 "/repo" "main" "2025-01-01T00:00:00Z"
        sampleCoordinatorSession rfl).2 rfl
    have hpre : pre = [] := by
      cases pre with
      | nil => rfl
      | cons a rest =>
        cases rest <;> simp at hl
    subst hpre
    have hpost : post = [] := by
      simpa using hl
    subst hpost
    simpa using hwrites

/-- C5 counterexample: reconciling the concrete dead working coordinator
record leaves lastActivity unchanged at its old value while setting the
state to zombie, and the coordinator status read with a failing
persistence write raises instead of returning its result. -/
theorem statusReconciliation_counterexample :
    (reconcileOne [] sampleCoordinatorSession).state = "zombie" ∧
    (reconcileOne [] sampleCoordinatorSession).lastActivity =
      "2024-01-01T00:00:00Z" ∧
    statusCoordinator [sampleCoordinatorSession] (fun _ => false)
      "2025-06-01T00:00:00Z" false = Except.error () := by
  refine ⟨?_, ?_, ?_⟩ <;> rfl

/-- C5 amended: the general status read reconciles every session in
booting, working or stalled whose tmux session is dead to zombie, leaving
lastActivity unchanged and all other sessions untouched, and returns the
reconciled collection whether or not the best-effort persistence write
succeeds; the coordinator status read additionally refreshes lastActivity
when demoting the dead coordinator record, but saves unguarded, so a
failing persistence write there raises instead of returning. -/
theorem statusReconciliation_spec (sessions : List AgentSession)
    (tmuxNames : List String) (writeOk : Bool)
    (csessions : List AgentSession) (calive : String → Bool)
    (nowIso : String) (ex : AgentSession)
    (hfind : findCoordinatorSession csessions = some ex)
    (hdead : calive ex.tmuxSession = false) :
    (gatherStatusAgents sessions tmuxNames writeOk).1 =
      sessions.map (reconcileOne tmuxNames) ∧
    (∀ s : AgentSession, isActiveState s.state = true →
      tmuxNames.contains s.tmuxSession = false →
      (reconcileOne tmuxNames s).state = "zombie" ∧
      (reconcileOne tmuxNames s).lastActivity = s.lastActivity) ∧
    (∀ s : AgentSession,
      (isActiveState s.state && !(tmuxNames.contains s.tmuxSession)) = false →
      reconcileOne tmuxNames s = s) ∧
    (∃ st rest, statusCoordinator csessions calive nowIso true =
      Except.ok (some st, rest) ∧ st.state = "zombie" ∧
      st.lastActivity = nowIso) ∧
    statusCoordinator csessions calive nowIso false = Except.error () := by
  have hactive : isActiveCoordinator ex = true :=
    List.find?_some hfind
  have hnc : (ex.state == "completed") = false := by
    have := hactive
    unfold isActiveCoordinator at this
    simp only [Bool.and_eq_true, Bool.not_eq_true'] at this
    exact this.1.2
  have hnz : (ex.state == "zombie") = false := by
    have := hactive
    unfold isActiveCoordinator at this
    simp only [Bool.and_eq_true, Bool.not_eq_true'] at this
    exact this.2
  refine ⟨rfl, ?_, ?_, ?_, ?_⟩
  · intro s h1 h2
    have h2m : s.tmuxSession ∉ tmuxNames := by simpa using h2
    constructor <;> simp [reconcileOne, h1, h2m]
  · intro s h
    simp only [reconcileOne, h]
    simp
  · refine ⟨mkCoordStatus (calive ex.tmuxSession)
      { ex with state := "zombie", lastActivity := nowIso },
      updateFirstCoordinator
        (fun r => { r with state := "zombie", lastActivity := nowIso })
        csessions, ?_, rfl, rfl⟩
    simp [statusCoordinator, hfind, hdead, hnc, hnz]
  · simp [statusCoordinator, hfind, hdead, hnc, hnz]

/-- Witness for C5 amended at the concrete dead coordinator record. -/
theorem statusReconciliation_spec_witness :
    (gatherStatusAgents [sampleCoordinatorSession] [] false).1 =
      [sampleCoordinatorSession].map (reconcileOne []) ∧
    statusCoordinator [sampleCoordinatorSession] (fun _ => false)
      "2025-06-01T00:00:00Z" false = Except.error () := by
  have h := statusReconciliation_spec [sampleCoordinatorSession] [] false
    [sampleCoordinatorSession] (fun _ => false) "2025-06-01T00:00:00Z"
    sampleCoordinatorSession rfl rfl
  exact ⟨h.1, h.2.2.2.2⟩

/-- C2: when the integration target and the incoming branch both modified
the same path with different content and no conflicting path is
structural, integration succeeds at tier content-merge and the final
content of every conflicting path equals the incoming version in full. -/
theorem integrate_contentMerge (base target incoming : FileTree) (p : String)
    (hconf : conflictAt base target incoming p = true)
    (hall : (conflictPaths base target incoming).all
      (fun q => !(structuralConflictAt base target incoming q)) = true) :
    (integrate base target incoming).success = true ∧
    (integrate base target incoming).tier = some "content-merge" ∧
    integrateContent base target incoming p = lookupFile incoming p := by
  have hcomp := hconf
  simp only [conflictAt, Bool.and_eq_true] at hcomp
  have hmodi : modifiedFrom base incoming p = true := hcomp.1.2
  have hbne : (lookupFile target p == lookupFile incoming p) = false := by
    have h2 := hcomp.2
    simpa using h2
  have hmemAll : p ∈ allPaths base target incoming := by
    by_cases hs : (lookupFile incoming p).isSome = true
    · have hmem := mem_treePaths_of_lookupFile_isSome incoming p hs
      unfold allPaths
      exact List.mem_dedup.mpr (by simp [hmem])
    · have hni : lookupFile incoming p = none := by
        cases h : lookupFile incoming p with
        | none => rfl
        | some v => rw [h] at hs; simp at hs
      have hst : (lookupFile target p).isSome = true := by
        cases h : lookupFile target p with
        | none => rw [h, hni] at hbne; simp at hbne
        | some v => simp
      have hmem := mem_treePaths_of_lookupFile_isSome target p hst
      unfold allPaths
      exact List.mem_dedup.mpr (by simp [hmem])
  have hmemc : p ∈ conflictPaths base target incoming :=
    List.mem_filter.mpr ⟨hmemAll, hconf⟩
  have hnil : conflictPaths base target incoming ≠ [] :=
    List.ne_nil_of_mem hmemc
  have hne : (conflictPaths base target incoming).isEmpty = false := by
    cases hq : (conflictPaths base target incoming).isEmpty
    · rfl
    · exact absurd (List.isEmpty_iff.mp hq) hnil
  have hsucc : (integrate base target incoming).success = true := by
    simp [integrate, hne, hall]
  refine ⟨hsucc, ?_, ?_⟩
  · simp [integrate, hne, hall]
  · simp [integrateContent, hsucc, mergedContent, hmodi]

/-- Witness for C2 at the content-conflict scenario of merge.test.ts: the
path modified on both sides resolves at tier content-merge to the feature
branch content. -/
theorem integrate_contentMerge_witness :
    conflictAt mergeBaseSample mergeTargetSample mergeIncomingSample
      "src/shared.ts" = true ∧
    (integrate mergeBaseSample mergeTargetSample mergeIncomingSample).tier =
      some "content-merge" ∧
    integrateContent mergeBaseSample mergeTargetSample mergeIncomingSample
      "src/shared.ts" = some "feature branch content" := by
  have h := integrate_contentMerge mergeBaseSample mergeTargetSample
    mergeIncomingSample "src/shared.ts" (by decide) (by decide)
  refine ⟨by decide, h.2.1, ?_⟩
  rw [h.2.2]
  decide

end Overstory
